import Mathlib

/-!
Verification of the `s3-parquet-to-postgres` work-list scheduler
(`src/work_lists.rs`), converter registry (`src/converters.rs`), schema
mapper (`src/parquet_ops.rs`) and schema binding (`src/db.rs`).

Files are modelled as `Option (List String)`: `none` is an absent file and
`some ls` is a file whose lines (without their trailing newline) are `ls`.
Every write the scheduler performs goes through `writeln!`, so a file it has
written renders to bytes as the concatenation of `line ++ "\n"`.
-/

/-- Rendering of a line list back to the byte content of the file, as
produced by repeated `writeln!`. -/
def renderLines (ls : List String) : String :=
  String.join (ls.map (fun l => l ++ "\n"))

/-- The line filter applied by `work_lists.rs` everywhere it reads a work
file: keep a line iff it is not all whitespace and does not start with `#`
after optional leading whitespace.  Mirrors
`!line.trim().is_empty() && !line.trim_start().starts_with('#')`, stated on
the character list: a line trims to empty iff every character is
whitespace, and `trim_start` followed by `starts_with('#')` holds iff the
first non-whitespace character is `#`. -/
def keepLine (line : String) : Bool :=
  !(line.data.all Char.isWhitespace) &&
    !((line.data.dropWhile Char.isWhitespace).head? == some '#')

/-- The scheduler state: the `WorkLists` struct of `work_lists.rs` (its
`batch_size` and in-memory `wip_list`) together with the three files of its
work directory.  The directory path and file name fields are elided: the
three files are identified structurally. -/
structure WorkState where
  batch_size : Nat
  todo : Option (List String)
  wip : Option (List String)
  completed : Option (List String)
  wip_list : List String
deriving DecidableEq, Repr

/-- `wip_file_to_wip_list` (work_lists.rs:20): an absent `wip` file yields
an empty list, otherwise the file's lines filtered by `keepLine`. -/
def wip_file_to_wip_list (s : WorkState) : List String :=
  match s.wip with
  | none => []
  | some ls => ls.filter keepLine

/-- `WorkLists::mark_completed` (work_lists.rs:83).  The item is removed
from `wip_list` by `retain` (dropping every occurrence), one line holding
the item is appended to `completed` (the file is created if missing), and
`wip` is rewritten from the updated `wip_list`.  The only failure the
filesystem model admits is the reopen of `wip` for truncation, which has no
`create(true)` and therefore fails when `wip` is absent; the error unwinds
after the in-memory removal and after the completed append has been
buffered (the buffer is flushed when its writer drops during the unwind),
so the failure state keeps both of those effects.  The returned `Bool` is
`true` for `Ok` and `false` for `Err`. -/
def mark_completed (s : WorkState) (completed_item : String) : Bool × WorkState :=
  let wl := s.wip_list.filter (· != completed_item)
  let completedLines := s.completed.getD [] ++ [completed_item]
  match s.wip with
  | none => (false, { s with wip_list := wl, completed := some completedLines })
  | some _ =>
      (true, { s with wip_list := wl, completed := some completedLines, wip := some wl })

/-- `WorkLists::next_batch` (work_lists.rs:110).  With a non-empty
`wip_list` the `wip` file is re-read; equality with the in-memory list
returns the state unchanged, inequality is the inconsistent-state error
(no file has been touched at that point).  With an empty `wip_list` the
`todo` file must exist (its read-open is the first fallible step); the
first `batch_size` `keepLine` lines become the new batch, `wip` is
truncated and rewritten with exactly those lines, `todo` is truncated and
rewritten with the remaining `keepLine` lines (the `take` over the filtered
line iterator consumes the raw lines up to and including the batch's last
item, so the remainder filtered is `drop batch_size` of the filtered
lines), and `wip_list` becomes the batch. -/
def next_batch (s : WorkState) : Bool × WorkState :=
  if s.wip_list.isEmpty then
    match s.todo with
    | none => (false, s)
    | some todoLines =>
        let items := (todoLines.filter keepLine).take s.batch_size
        let remaining := (todoLines.filter keepLine).drop s.batch_size
        (true, { s with wip := some items, todo := some remaining, wip_list := items })
  else
    if wip_file_to_wip_list s = s.wip_list then (true, s) else (false, s)

/-- The multiset tracked by the conservation claim: lines of `completed`,
then the in-memory `wip_list`, then the `keepLine` lines of `todo`. -/
def trackedItems (s : WorkState) : Multiset String :=
  (↑(s.completed.getD []) + ↑s.wip_list + ↑((s.todo.getD []).filter keepLine) : Multiset String)

/-- States reachable by a sequence of successful `next_batch` /
`mark_completed` calls, with no restriction on the argument of
`mark_completed`.  This is the quantification of the conservation claim as
stated. -/
inductive Reach : WorkState → WorkState → Prop
  | refl (s : WorkState) : Reach s s
  | next {s₀ s : WorkState} (h : Reach s₀ s) (hok : (next_batch s).1 = true) :
      Reach s₀ (next_batch s).2
  | mark {s₀ s : WorkState} (item : String) (h : Reach s₀ s)
      (hok : (mark_completed s item).1 = true) :
      Reach s₀ (mark_completed s item).2

/-- States reachable by successful calls in which every `mark_completed`
names an item currently in `wip_list` (the §4.5 precondition). -/
inductive SafeReach : WorkState → WorkState → Prop
  | refl (s : WorkState) : SafeReach s s
  | next {s₀ s : WorkState} (h : SafeReach s₀ s) (hok : (next_batch s).1 = true) :
      SafeReach s₀ (next_batch s).2
  | mark {s₀ s : WorkState} (item : String) (h : SafeReach s₀ s)
      (hmem : item ∈ s.wip_list) (hok : (mark_completed s item).1 = true) :
      SafeReach s₀ (mark_completed s item).2

/-- An initial state as in the conservation claim: `todo` present and
non-empty, `wip` and `completed` empty or absent, and the in-memory list
(as `WorkLists::new` produces it from an empty-or-absent `wip`) empty. -/
def InitState (s : WorkState) : Prop :=
  (∃ ls, s.todo = some ls ∧ ls ≠ []) ∧
    (s.wip = none ∨ s.wip = some []) ∧
    (s.completed = none ∨ s.completed = some []) ∧
    s.wip_list = []

/-- Example state used by the conservation counterexample: a `todo`
holding the same item twice. -/
def dupTodoState : WorkState :=
  { batch_size := 2, todo := some ["item_A", "item_A"], wip := none,
    completed := none, wip_list := [] }

/-- C2: whenever `next_batch` runs with a non-empty in-memory `wip_list`,
a `wip` file that filters back to exactly that list makes the call return
the state (and so the `wip_list`) unchanged with no file modified, and any
other on-disk content makes the call fail with the inconsistent-state
error, again with all three files unchanged. -/
theorem next_batch_nonempty_wip (s : WorkState) (h : s.wip_list ≠ []) :
    (wip_file_to_wip_list s = s.wip_list → next_batch s = (true, s)) ∧
    (wip_file_to_wip_list s ≠ s.wip_list → next_batch s = (false, s)) := by
  constructor <;> intro hw <;>
    simp [next_batch, List.isEmpty_iff, h, hw]

/-- Witness for `next_batch_nonempty_wip`: the consistent resume state and
an externally edited `wip` file, at concrete inputs. -/
theorem next_batch_nonempty_wip_witness :
    next_batch { batch_size := 2, todo := some ["item_C"],
                 wip := some ["ITEM_A", "ITEM_B"], completed := none,
                 wip_list := ["ITEM_A", "ITEM_B"] } =
      (true, { batch_size := 2, todo := some ["item_C"],
               wip := some ["ITEM_A", "ITEM_B"], completed := none,
               wip_list := ["ITEM_A", "ITEM_B"] }) ∧
    next_batch { batch_size := 2, todo := some ["item_C"],
                 wip := some ["EDITED"], completed := none,
                 wip_list := ["ITEM_A", "ITEM_B"] } =
      (false, { batch_size := 2, todo := some ["item_C"],
                wip := some ["EDITED"], completed := none,
                wip_list := ["ITEM_A", "ITEM_B"] }) :=
  ⟨(next_batch_nonempty_wip _ (by decide)).1 (by decide),
   (next_batch_nonempty_wip _ (by decide)).2 (by decide)⟩

/-- C4: `next_batch` on an empty in-memory `wip_list` and an existing
`todo` file takes the first `batch_size` non-comment non-blank lines of
`todo` as the batch, overwrites `wip` with exactly those lines, rewrites
`todo` with exactly the remaining non-comment non-blank lines, and sets
`wip_list` to the batch. -/
theorem next_batch_empty_wip (s : WorkState) (ls : List String)
    (hwl : s.wip_list = []) (ht : s.todo = some ls) :
    next_batch s =
      (true, { s with wip := some ((ls.filter keepLine).take s.batch_size),
                      todo := some ((ls.filter keepLine).drop s.batch_size),
                      wip_list := (ls.filter keepLine).take s.batch_size }) := by
  simp [next_batch, hwl, ht]

/-- Witness for `next_batch_empty_wip`: the first-run boundary scenario
(`todo` = `item_A..item_E`, batch_size 3, `wip` and `completed` absent),
including the byte-exact rendering of the rewritten files. -/
theorem next_batch_empty_wip_witness :
    next_batch { batch_size := 3,
                 todo := some ["item_A", "item_B", "item_C", "item_D", "item_E"],
                 wip := none, completed := none, wip_list := [] } =
      (true, { batch_size := 3, todo := some ["item_D", "item_E"],
               wip := some ["item_A", "item_B", "item_C"], completed := none,
               wip_list := ["item_A", "item_B", "item_C"] }) ∧
    renderLines ["item_A", "item_B", "item_C"] = "item_A\nitem_B\nitem_C\n" ∧
    renderLines ["item_D", "item_E"] = "item_D\nitem_E\n" :=
  ⟨(next_batch_empty_wip _ _ rfl rfl).trans (by decide), rfl, rfl⟩

/-- C5: `mark_completed` on an item present in `wip_list`, in a scheduler
state whose `wip` file exists (the scheduler's own entry invariant keeps
the on-disk `wip` equal to the non-empty in-memory list), removes the item
from `wip_list`, appends exactly one line holding the item to `completed`
(creating the file when missing), and rewrites `wip` to exactly the lines
of the updated `wip_list`. -/
theorem mark_completed_in_wip (s : WorkState) (w : List String) (item : String)
    (hmem : item ∈ s.wip_list) (hw : s.wip = some w) :
    mark_completed s item =
      (true, { s with wip_list := s.wip_list.filter (· != item),
                      completed := some (s.completed.getD [] ++ [item]),
                      wip := some (s.wip_list.filter (· != item)) }) := by
  simp [mark_completed, hw]

/-- Witness for `mark_completed_in_wip`: the boundary scenario
`wip_list = [apple, banana]`, `wip` file `apple\nbanana\n`, no `completed`
file, marking `apple`, including the byte renderings. -/
theorem mark_completed_in_wip_witness :
    mark_completed { batch_size := 2, todo := some [],
                     wip := some ["apple", "banana"], completed := none,
                     wip_list := ["apple", "banana"] } "apple" =
      (true, { batch_size := 2, todo := some [], wip := some ["banana"],
               completed := some ["apple"], wip_list := ["banana"] }) ∧
    renderLines ["apple"] = "apple\n" ∧ renderLines ["banana"] = "banana\n" :=
  ⟨by
    have h := mark_completed_in_wip
      { batch_size := 2, todo := some [], wip := some ["apple", "banana"],
        completed := none, wip_list := ["apple", "banana"] }
      ["apple", "banana"] "apple" (by decide) rfl
    simpa using h,
   rfl, rfl⟩

/-- C10: `mark_completed` checks no membership: on an item absent from
`wip_list` (with the `wip` file present, so that its truncate-reopen
succeeds) it still returns `Ok`, appends the item as a line to
`completed`, and rewrites `wip` from the unchanged `wip_list`. -/
theorem mark_completed_not_in_wip (s : WorkState) (w : List String) (item : String)
    (hmem : item ∉ s.wip_list) (hw : s.wip = some w) :
    mark_completed s item =
      (true, { s with completed := some (s.completed.getD [] ++ [item]),
                      wip := some s.wip_list }) := by
  have hfix : s.wip_list.filter (· != item) = s.wip_list := by
    apply List.filter_eq_self.mpr
    intro a ha
    simpa using fun he : a = item => hmem (he ▸ ha)
  simp only [mark_completed, hw, hfix]

/-- Witness for `mark_completed_not_in_wip`: marking `durian`, which was
never checked out, still logs it to `completed`. -/
theorem mark_completed_not_in_wip_witness :
    mark_completed { batch_size := 2, todo := some [], wip := some ["cherry"],
                     completed := some ["apple"], wip_list := ["cherry"] } "durian" =
      (true, { batch_size := 2, todo := some [], wip := some ["cherry"],
               completed := some ["apple", "durian"], wip_list := ["cherry"] }) := by
  have h := mark_completed_not_in_wip
    { batch_size := 2, todo := some [], wip := some ["cherry"],
      completed := some ["apple"], wip_list := ["cherry"] }
    ["cherry"] "durian" (by decide) rfl
  simpa using h

/-- A successful `next_batch` leaves the tracked multiset (completed lines
plus `wip_list` plus remaining filtered `todo` lines) unchanged. -/
theorem next_batch_tracked (s : WorkState) (hok : (next_batch s).1 = true) :
    trackedItems (next_batch s).2 = trackedItems s := by
  unfold next_batch at hok ⊢
  by_cases hwl : s.wip_list.isEmpty = true
  · cases ht : s.todo with
    | none => simp [hwl, ht] at hok
    | some ls =>
        simp only [hwl, ht, if_true]
        have hdropfix :
            (List.drop s.batch_size (ls.filter keepLine)).filter keepLine =
              List.drop s.batch_size (ls.filter keepLine) := by
          apply List.filter_eq_self.mpr
          intro a ha
          exact List.of_mem_filter (List.mem_of_mem_drop ha)
        have hlist := List.take_append_drop s.batch_size (ls.filter keepLine)
        rw [List.isEmpty_iff] at hwl
        simp only [trackedItems, ht, hdropfix, Option.getD_some, hwl]
        rw [add_assoc, Multiset.coe_add, hlist]
        simp
  · rw [if_neg hwl] at hok ⊢
    by_cases heq : wip_file_to_wip_list s = s.wip_list
    · rw [if_pos heq]
    · rw [if_neg heq] at hok
      simp at hok

/-- A successful `mark_completed` of an item occurring exactly once (here:
member of a duplicate-free `wip_list`) leaves the tracked multiset
unchanged. -/
theorem mark_completed_tracked (s : WorkState) (item : String)
    (hmem : item ∈ s.wip_list) (hnd : s.wip_list.Nodup)
    (hok : (mark_completed s item).1 = true) :
    trackedItems (mark_completed s item).2 = trackedItems s := by
  unfold mark_completed at hok ⊢
  cases hw : s.wip with
  | none => simp [hw] at hok
  | some w =>
      simp only [hw, trackedItems, Option.getD_some]
      have herase : s.wip_list.filter (· != item) = s.wip_list.erase item :=
        (hnd.erase_eq_filter item).symm
      have hcoe : (↑s.wip_list : Multiset String) = ↑(item :: s.wip_list.erase item) :=
        Multiset.coe_eq_coe.mpr (List.perm_cons_erase hmem)
      rw [herase, hcoe]
      repeat rw [Multiset.coe_add]
      simp

/-- C1 counterexample: starting from a non-empty `todo` whose item line
`item_A` appears twice (`wip` and `completed` absent), the successful
sequence `next_batch; mark_completed("item_A")` ends with `completed`
holding one `item_A` line, `wip_list` and `todo` empty: the tracked
multiset is `{item_A}`, not the original `{item_A, item_A}`.
`mark_completed` removed both occurrences from `wip_list` (it uses
`retain`) but appended only one line. -/
theorem work_conservation_counterexample :
    InitState dupTodoState ∧
    Reach dupTodoState (mark_completed (next_batch dupTodoState).2 "item_A").2 ∧
    "item_A" ∈ (next_batch dupTodoState).2.wip_list ∧
    trackedItems (mark_completed (next_batch dupTodoState).2 "item_A").2 ≠
      (↑((dupTodoState.todo.getD []).filter keepLine) : Multiset String) := by
  refine ⟨⟨⟨["item_A", "item_A"], rfl, by decide⟩, Or.inl rfl, Or.inl rfl, rfl⟩,
    Reach.mark "item_A" (Reach.next (Reach.refl _) (by decide)) (by decide),
    by decide, by decide⟩

/-- C1 amended: for every sequence of successful `next_batch` /
`mark_completed` calls from an initial state with non-empty `todo`, absent
or empty `wip` and `completed` and empty in-memory list, in which every
`mark_completed` names an item of the current `wip_list` and the original
todo item lines are pairwise distinct, the multiset of lines appended to
`completed` plus the current `wip_list` plus the remaining filtered `todo`
lines equals the multiset of the original filtered `todo` lines. -/
theorem work_conservation (s₀ s : WorkState) (hinit : InitState s₀)
    (hnodup : ((s₀.todo.getD []).filter keepLine).Nodup)
    (h : SafeReach s₀ s) :
    trackedItems s = (↑((s₀.todo.getD []).filter keepLine) : Multiset String) := by
  induction h with
  | refl =>
      obtain ⟨⟨ls, hts, -⟩, hwip, hcomp, hwl⟩ := hinit
      rcases hcomp with hc | hc <;>
        simp [trackedItems, hc, hwl, hts]
  | next h hok ih => rw [next_batch_tracked _ hok, ih]
  | mark item h hmem hok ih =>
      rename_i s'
      have hle : (↑s'.wip_list : Multiset String) ≤ trackedItems s' := by
        unfold trackedItems
        exact (Multiset.le_add_left _ _).trans (Multiset.le_add_right _ _)
      have hnd : s'.wip_list.Nodup :=
        Multiset.coe_nodup.mp
          (Multiset.nodup_of_le (hle.trans (le_of_eq ih))
            (Multiset.coe_nodup.mpr hnodup))
      rw [mark_completed_tracked s' item hmem hnd hok, ih]

/-- Witness for `work_conservation`: the run `next_batch;
mark_completed("x"); next_batch` on `todo` = `[x, y]` with batch size 1
conserves the tracked multiset. -/
theorem work_conservation_witness :
    trackedItems
      (next_batch (mark_completed
        (next_batch { batch_size := 1, todo := some ["x", "y"], wip := none,
                      completed := none, wip_list := [] }).2 "x").2).2 =
      (↑((( { batch_size := 1, todo := some ["x", "y"], wip := none,
              completed := none,
              wip_list := [] } : WorkState).todo.getD []).filter keepLine) :
        Multiset String) :=
  work_conservation _ _
    ⟨⟨["x", "y"], rfl, by decide⟩, Or.inl rfl, Or.inl rfl, rfl⟩
    (by decide)
    (SafeReach.next
      (SafeReach.mark "x" (SafeReach.next (SafeReach.refl _) (by decide))
        (by decide) (by decide))
      (by decide))

/-- One on-disk mutation performed during `mark_completed`.  The function
opens `completed` in append mode (no data written yet), writes the item
line into an in-memory `BufWriter`, then opens `wip` with `truncate(true)`
(the truncation happens at `open`), writes the remaining lines into a
second `BufWriter`, and returns.  Neither writer is flushed explicitly:
each flushes when it is dropped at the end of the function, and locals
drop in reverse declaration order, so `wip_writer` (declared last) flushes
before `completed_writer`.  The resulting order of on-disk mutations is
the trace below. -/
inductive DiskEvent where
  | truncateWip : DiskEvent
  | flushWip (ls : List String) : DiskEvent
  | flushCompletedLine (item : String) : DiskEvent
deriving DecidableEq

/-- The sequence of on-disk mutations of one `mark_completed(item)` call
(work_lists.rs:83-108) whose item line fits inside the default `BufWriter`
buffer: the `wip` truncation at open, then the flush of the rewritten
`wip` lines, then - only after that, at `completed_writer`'s drop - the
flush of the item line appended to `completed`. -/
def mark_completed_disk_trace (s : WorkState) (item : String) : List DiskEvent :=
  [DiskEvent.truncateWip,
   DiskEvent.flushWip (s.wip_list.filter (· != item)),
   DiskEvent.flushCompletedLine item]

/-- Effect of one on-disk mutation on the three files. -/
def applyDiskEvent (s : WorkState) : DiskEvent → WorkState
  | DiskEvent.truncateWip => { s with wip := some [] }
  | DiskEvent.flushWip ls => { s with wip := some ls }
  | DiskEvent.flushCompletedLine item =>
      { s with completed := some (s.completed.getD [] ++ [item]) }

/-- C3 (refuted): at the state `wip_list = [apple]`, `wip` file =
`apple\n`, `completed` absent, the trace of `mark_completed("apple")`
truncates `wip` as its very first on-disk step, while the `completed`
append is the last step; interrupting after the first (or second) step
leaves `apple` gone from the on-disk `wip` and absent from `completed`.
The full trace does end in the documented final state, but the
`completed`-before-`wip` ordering claimed by the spec (and by the
`FIRST add to completed file` comment in the source) does not hold at the
file level, because the completed line is still sitting in its
`BufWriter` when `wip` is truncated and rewritten. -/
theorem mark_completed_crash_window :
    mark_completed_disk_trace
        { batch_size := 1, todo := some [], wip := some ["apple"],
          completed := none, wip_list := ["apple"] } "apple" =
      [DiskEvent.truncateWip, DiskEvent.flushWip [],
       DiskEvent.flushCompletedLine "apple"] ∧
    (let crashedAfterTruncate :=
      ((mark_completed_disk_trace
          { batch_size := 1, todo := some [], wip := some ["apple"],
            completed := none, wip_list := ["apple"] } "apple").take 1).foldl
        applyDiskEvent
        { batch_size := 1, todo := some [], wip := some ["apple"],
          completed := none, wip_list := ["apple"] }
    "apple" ∉ crashedAfterTruncate.wip.getD [] ∧
      "apple" ∉ crashedAfterTruncate.completed.getD []) ∧
    (let crashedAfterWipFlush :=
      ((mark_completed_disk_trace
          { batch_size := 1, todo := some [], wip := some ["apple"],
            completed := none, wip_list := ["apple"] } "apple").take 2).foldl
        applyDiskEvent
        { batch_size := 1, todo := some [], wip := some ["apple"],
          completed := none, wip_list := ["apple"] }
    "apple" ∉ crashedAfterWipFlush.wip.getD [] ∧
      "apple" ∉ crashedAfterWipFlush.completed.getD []) ∧
    ((mark_completed_disk_trace
        { batch_size := 1, todo := some [], wip := some ["apple"],
          completed := none, wip_list := ["apple"] } "apple").foldl
      applyDiskEvent
      { batch_size := 1, todo := some [], wip := some ["apple"],
        completed := none, wip_list := ["apple"] }).completed = some ["apple"] := by
  exact ⟨by decide, ⟨by decide, by decide⟩, ⟨by decide, by decide⟩, by decide⟩

/-- Parquet physical types (`parquet::basic::Type`, aliased `PqType` in
converters.rs). -/
inductive PqType where
  | BOOLEAN | INT32 | INT64 | INT96 | FLOAT | DOUBLE | BYTE_ARRAY
  | FIXED_LEN_BYTE_ARRAY
deriving DecidableEq

/-- Parquet logical/converted annotations (`parquet::basic::ConvertedType`).
The annotations of the parquet crate not listed here all take the same
`_` catch-all arms as `MAP`, `TIME_MILLIS` and `INTERVAL` below. -/
inductive ConvertedType where
  | NONE | UTF8 | MAP | LIST | ENUM | DECIMAL | DATE | TIME_MILLIS
  | INT_8 | INT_16 | INT_32 | JSON | BSON | INTERVAL
deriving DecidableEq

/-- Destination SQL types (`tokio_postgres::types::Type`), restricted to
the constants converters.rs and db.rs mention.  `BPCHAR` is the SQL
`CHAR(n)` type; `CHAR` is postgres's internal one-byte `"char"`. -/
inductive PgType where
  | BOOL | BPCHAR | CHAR | TEXT | DATE | TIMESTAMP | TIMESTAMPTZ | VARCHAR
  | UNKNOWN | INET | CIDR | INT2 | INT4 | INT8 | FLOAT4 | FLOAT8 | BYTEA
  | NUMERIC
deriving DecidableEq

/-- A decoded parquet field (`parquet::record::Field`; named `PqField`
here since `Field` is taken by the algebra hierarchy).  Floating-point
payloads are carried as uninterpreted bit patterns: no converter under
verification computes with them, they are only copied. -/
inductive PqField where
  | Null
  | Bool (b : Bool)
  | Byte (v : Int)
  | Short (v : Int)
  | Int (v : Int)
  | Long (v : Int)
  | UInt (v : Nat)
  | Float (bits : Nat)
  | Double (bits : Nat)
  | Str (s : String)
  | Bytes (bs : List Nat)
  | Date (days : Int)
  | Decimal (unscaled : Int) (precision : Nat) (scale : Nat)
  | Group
deriving DecidableEq

/-- A calendar date, the model of `chrono::NaiveDate`. -/
structure Ymd where
  year : Int
  month : Nat
  day : Nat
deriving DecidableEq

/-- Proleptic-Gregorian leap year rule (the rule `chrono` implements). -/
def isLeapYear (y : Int) : Bool :=
  (y % 4 == 0 && y % 100 != 0) || y % 400 == 0

def daysInMonth (y : Int) (m : Nat) : Nat :=
  if m = 2 then (if isLeapYear y then 29 else 28)
  else if m = 4 ∨ m = 6 ∨ m = 9 ∨ m = 11 then 30
  else 31

/-- The calendar successor of a date. -/
def nextDay (d : Ymd) : Ymd :=
  if d.day < daysInMonth d.year d.month then { d with day := d.day + 1 }
  else if d.month < 12 then { d with month := d.month + 1, day := 1 }
  else { year := d.year + 1, month := 1, day := 1 }

/-- The calendar predecessor of a date. -/
def prevDay (d : Ymd) : Ymd :=
  if 1 < d.day then { d with day := d.day - 1 }
  else if 1 < d.month then
    { d with month := d.month - 1, day := daysInMonth d.year (d.month - 1) }
  else { year := d.year - 1, month := 12, day := 31 }

/-- `date + chrono::Duration::days(n)`: the date `n` calendar days later
(earlier for negative `n`). -/
def addDays (d : Ymd) (n : Int) : Ymd :=
  if 0 ≤ n then Nat.iterate nextDay n.toNat d else Nat.iterate prevDay (-n).toNat d

/-- `NAIVE_EPOCH` (converters.rs:8): 1970-01-01. -/
def NAIVE_EPOCH : Ymd := { year := 1970, month := 1, day := 1 }

/-- `parquet_date_to_naive_date` (converters.rs:16): the epoch date plus
the parquet `i32` day count. -/
def parquet_date_to_naive_date (parquet_date : Int) : Ymd :=
  addDays NAIVE_EPOCH parquet_date

/-- Zero-padded decimal rendering, as `chrono`'s `%Y`/`%m`/`%d`. -/
def padNum (width : Nat) (n : Nat) : String :=
  let s := Nat.repr n
  String.mk (List.replicate (width - s.length) '0') ++ s

/-- The `%Y-%m-%d` rendering of a date (converters.rs:210). -/
def formatYMD (d : Ymd) : String :=
  (if d.year < 0 then "-" ++ padNum 4 d.year.natAbs else padNum 4 d.year.toNat)
    ++ "-" ++ padNum 2 d.month ++ "-" ++ padNum 2 d.day

/-- A value handed to the binary-copy writer: the model of
`Box<dyn ToSql + Sync>`, tagged with the Rust type the source boxes. -/
inductive SqlValue where
  | Null
  | SBool (b : Bool)
  | I8 (v : Int)
  | I16 (v : Int)
  | I32 (v : Int)
  | I64 (v : Int)
  | U32 (v : Nat)
  | F32 (bits : Nat)
  | F64 (bits : Nat)
  | SText (s : String)
  | SDate (d : Ymd)
deriving DecidableEq

/-- The `NullVal` converter closures (converters.rs:71, 87): every field
maps to SQL NULL. -/
def nullConv : PqField → SqlValue := fun _ => SqlValue.Null

/-- converters.rs:201-206: `Field::Date` to a native date value. -/
def dateToDateConv : PqField → SqlValue
  | PqField.Date v => SqlValue.SDate (parquet_date_to_naive_date v)
  | _ => SqlValue.Null

/-- converters.rs:207-216: `Field::Date` formatted `%Y-%m-%d`. -/
def dateToTextConv : PqField → SqlValue
  | PqField.Date v => SqlValue.SText (formatYMD (parquet_date_to_naive_date v))
  | _ => SqlValue.Null

def shortToI16Conv : PqField → SqlValue
  | PqField.Short v => SqlValue.I16 v
  | _ => SqlValue.Null

def shortToI32Conv : PqField → SqlValue
  | PqField.Short v => SqlValue.I32 v
  | _ => SqlValue.Null

def shortToI64Conv : PqField → SqlValue
  | PqField.Short v => SqlValue.I64 v
  | _ => SqlValue.Null

def intToI32Conv : PqField → SqlValue
  | PqField.Int v => SqlValue.I32 v
  | _ => SqlValue.Null

def intToI64Conv : PqField → SqlValue
  | PqField.Int v => SqlValue.I64 v
  | _ => SqlValue.Null

/-- converters.rs:138-143: `Field::Str` forwarded unchanged. -/
def strConv : PqField → SqlValue
  | PqField.Str v => SqlValue.SText v
  | _ => SqlValue.Null

/-- converters.rs:104-109: both arms box `NullVal`. -/
def decimalToFloat4Conv : PqField → SqlValue
  | PqField.Decimal _ _ _ => SqlValue.Null
  | _ => SqlValue.Null

/-- The catch-all converter of `build` (converters.rs:246-263): forwards
the decoded value boxed as its Rust type, `Null` for unhandled kinds. -/
def passThroughConv : PqField → SqlValue
  | PqField.Null => SqlValue.Null
  | PqField.Bool v => SqlValue.SBool v
  | PqField.Byte v => SqlValue.I8 v
  | PqField.Short v => SqlValue.I16 v
  | PqField.Int v => SqlValue.I32 v
  | PqField.Long v => SqlValue.I64 v
  | PqField.UInt v => SqlValue.U32 v
  | PqField.Float v => SqlValue.F32 v
  | PqField.Double v => SqlValue.F64 v
  | PqField.Str v => SqlValue.SText v
  | _ => SqlValue.Null

/-- Outcome of selecting one column's converter.  `panics` models a
reached `todo!()`; `failure` is a structured `Err`, which no selector of
converters.rs ever constructs. -/
inductive ConverterOutcome where
  | panics
  | failure (msg : String)
  | conv (f : PqField → SqlValue)

/-- `pgtype_accepts_str` (converters.rs:119). -/
def pgtype_accepts_str (pgtype : PgType) : Bool :=
  match pgtype with
  | PgType.BPCHAR | PgType.CHAR | PgType.TEXT | PgType.DATE | PgType.TIMESTAMP
  | PgType.TIMESTAMPTZ | PgType.VARCHAR | PgType.UNKNOWN | PgType.INET
  | PgType.CIDR => true
  | _ => false

/-- `field_is_date` (converters.rs:198). -/
def field_is_date (_converted : ConvertedType) (db_col_type : PgType) :
    ConverterOutcome :=
  match db_col_type with
  | PgType.DATE => ConverterOutcome.conv dateToDateConv
  | PgType.VARCHAR | PgType.TEXT | PgType.BPCHAR =>
      ConverterOutcome.conv dateToTextConv
  | _ => ConverterOutcome.panics

/-- `field_is_short` (converters.rs:171). -/
def field_is_short (_converted : ConvertedType) (db_col_type : PgType) :
    ConverterOutcome :=
  match db_col_type with
  | PgType.INT2 => ConverterOutcome.conv shortToI16Conv
  | PgType.INT4 => ConverterOutcome.conv shortToI32Conv
  | PgType.INT8 => ConverterOutcome.conv shortToI64Conv
  | _ => ConverterOutcome.panics

/-- `field_is_int` (converters.rs:150). -/
def field_is_int (_converted : ConvertedType) (db_col_type : PgType) :
    ConverterOutcome :=
  match db_col_type with
  | PgType.INT4 => ConverterOutcome.conv intToI32Conv
  | PgType.INT8 => ConverterOutcome.conv intToI64Conv
  | _ => ConverterOutcome.panics

/-- `field_is_str` (converters.rs:135). -/
def field_is_str (_converted : ConvertedType) (db_col_type : PgType) :
    ConverterOutcome :=
  if pgtype_accepts_str db_col_type then ConverterOutcome.conv strConv
  else ConverterOutcome.panics

/-- `field_is_bytes` (converters.rs:92): every destination is `todo!()`. -/
def field_is_bytes (_converted : ConvertedType) (_db_col_type : PgType) :
    ConverterOutcome :=
  ConverterOutcome.panics

/-- `field_is_decimal` (converters.rs:101). -/
def field_is_decimal (_converted : ConvertedType) (db_col_type : PgType) :
    ConverterOutcome :=
  match db_col_type with
  | PgType.FLOAT4 => ConverterOutcome.conv decimalToFloat4Conv
  | _ => ConverterOutcome.panics

/-- `p_int32` (converters.rs:62). -/
def p_int32 (converted : ConvertedType) (db_col_type : PgType) :
    ConverterOutcome :=
  match converted with
  | ConvertedType.DATE => field_is_date converted db_col_type
  | ConvertedType.INT_16 => field_is_short converted db_col_type
  | ConvertedType.NONE | ConvertedType.INT_32 =>
      field_is_int converted db_col_type
  | _ => ConverterOutcome.conv nullConv

/-- `p_byte_array` (converters.rs:77). -/
def p_byte_array (converted : ConvertedType) (db_col_type : PgType) :
    ConverterOutcome :=
  match converted with
  | ConvertedType.UTF8 | ConvertedType.ENUM | ConvertedType.JSON =>
      field_is_str converted db_col_type
  | ConvertedType.NONE | ConvertedType.BSON =>
      field_is_bytes converted db_col_type
  | ConvertedType.DECIMAL => field_is_decimal converted db_col_type
  | _ => ConverterOutcome.conv nullConv

/-- The per-column dispatch of `build` (converters.rs:238-265). -/
def build_one (physical : PqType) (converted : ConvertedType)
    (db_col_type : PgType) : ConverterOutcome :=
  match physical with
  | PqType.INT32 => p_int32 converted db_col_type
  | PqType.BYTE_ARRAY => p_byte_array converted db_col_type
  | _ => ConverterOutcome.conv passThroughConv

/-- Result of `converters::build`: `panics` also covers the out-of-bounds
index `db_col_types[i]` when the two input vectors differ in length. -/
inductive BuildResult where
  | panics
  | failure (msg : String)
  | ok (convs : List (PqField → SqlValue))

/-- `build` (converters.rs:224): one converter per `(physical, converted)`
pair, selected against the destination type at the same index. -/
def build : List (PqType × ConvertedType) → List PgType → BuildResult
  | [], [] => BuildResult.ok []
  | pc :: rest, d :: ds =>
      (match build_one pc.1 pc.2 d with
       | ConverterOutcome.panics => BuildResult.panics
       | ConverterOutcome.failure msg => BuildResult.failure msg
       | ConverterOutcome.conv f =>
          (match build rest ds with
           | BuildResult.ok fs => BuildResult.ok (f :: fs)
           | BuildResult.panics => BuildResult.panics
           | BuildResult.failure msg => BuildResult.failure msg))
  | _, _ => BuildResult.panics

/-- The §4.1 truth table of the specification, as a predicate on
`(physical, logical, destination)` triples.  Modelled from the spec: the
spec's `CHAR` destination is taken to cover both the SQL `CHAR` type
(`BPCHAR`) and postgres's internal `"char"`, and the spec's `BOOL/none`
logical annotation for the `BOOL` physical type is `NONE` (the parquet
crate has no `BOOL` converted type). -/
def matchesRule (physical : PqType) (converted : ConvertedType)
    (dest : PgType) : Bool :=
  let textDest :=
    dest == PgType.VARCHAR || dest == PgType.TEXT || dest == PgType.BPCHAR ||
      dest == PgType.CHAR
  match physical, converted with
  | PqType.BOOLEAN, ConvertedType.NONE =>
      dest == PgType.BOOL || textDest || dest == PgType.INT2
  | PqType.INT32, ConvertedType.INT_8 =>
      dest == PgType.INT2 || dest == PgType.INT4 || dest == PgType.INT8
  | PqType.INT32, ConvertedType.INT_16 =>
      dest == PgType.INT2 || dest == PgType.INT4 || dest == PgType.INT8
  | PqType.INT32, ConvertedType.DATE =>
      dest == PgType.DATE || dest == PgType.INT4 || dest == PgType.INT8 ||
        textDest
  | PqType.INT32, ConvertedType.INT_32 | PqType.INT32, ConvertedType.NONE =>
      dest == PgType.INT4 || dest == PgType.INT8
  | PqType.BYTE_ARRAY, ConvertedType.UTF8 | PqType.BYTE_ARRAY, ConvertedType.ENUM
  | PqType.BYTE_ARRAY, ConvertedType.JSON =>
      textDest || dest == PgType.DATE || dest == PgType.TIMESTAMP ||
        dest == PgType.TIMESTAMPTZ || dest == PgType.INET || dest == PgType.CIDR
  | PqType.BYTE_ARRAY, ConvertedType.NONE | PqType.BYTE_ARRAY, ConvertedType.BSON =>
      dest == PgType.BYTEA
  | PqType.BYTE_ARRAY, ConvertedType.DECIMAL =>
      dest == PgType.NUMERIC || dest == PgType.FLOAT4 || dest == PgType.FLOAT8
  | _, _ => false

/-- C6 counterexample: `(INT32, TIME_MILLIS, INT4)` matches no truth-table
rule, yet `build` neither fails with a structured error (it returns `ok`)
nor installs a pass-through converter: the installed converter maps the
decoded value `Int 5` to SQL NULL, while the pass-through converter
returns it unchanged. -/
theorem unsupported_triple_counterexample :
    matchesRule PqType.INT32 ConvertedType.TIME_MILLIS PgType.INT4 = false ∧
    build [(PqType.INT32, ConvertedType.TIME_MILLIS)] [PgType.INT4] =
      BuildResult.ok [nullConv] ∧
    nullConv (PqField.Int 5) = SqlValue.Null ∧
    passThroughConv (PqField.Int 5) = SqlValue.I32 5 ∧
    SqlValue.Null ≠ SqlValue.I32 5 :=
  ⟨by decide, rfl, rfl, rfl, by decide⟩

/-- C6 amended: for every triple matching no truth-table rule, `build`
never returns a structured error; it panics through an unimplemented
`todo!()` stub, or installs a converter mapping every field to SQL NULL,
or installs the text converter (textual logical type with a
string-accepting destination outside the table, i.e. `UNKNOWN`), or
installs the general pass-through (physical type other than
INT32/BYTE_ARRAY). -/
theorem unsupported_triple_behavior (p : PqType) (c : ConvertedType) (d : PgType)
    (h : matchesRule p c d = false) :
    build [(p, c)] [d] = BuildResult.panics ∨
    (∃ f, build [(p, c)] [d] = BuildResult.ok [f] ∧ ∀ fld, f fld = SqlValue.Null) ∨
    build [(p, c)] [d] = BuildResult.ok [strConv] ∨
    build [(p, c)] [d] = BuildResult.ok [passThroughConv] := by
  cases p
  case INT32 =>
    cases c <;> cases d <;>
      first
      | exact absurd h (by decide)
      | exact Or.inl rfl
      | exact Or.inr (Or.inl ⟨nullConv, rfl, fun _ => rfl⟩)
  case BYTE_ARRAY =>
    cases c <;> cases d <;>
      first
      | exact absurd h (by decide)
      | exact Or.inl rfl
      | exact Or.inr (Or.inr (Or.inl rfl))
      | exact Or.inr (Or.inl ⟨nullConv, rfl, fun _ => rfl⟩)
  all_goals exact Or.inr (Or.inr (Or.inr rfl))

/-- Witness for `unsupported_triple_behavior` at the concrete unmatched
triple `(INT32, TIME_MILLIS, INT4)`. -/
theorem unsupported_triple_behavior_witness :
    matchesRule PqType.INT32 ConvertedType.TIME_MILLIS PgType.INT4 = false ∧
    (build [(PqType.INT32, ConvertedType.TIME_MILLIS)] [PgType.INT4] =
        BuildResult.panics ∨
      (∃ f, build [(PqType.INT32, ConvertedType.TIME_MILLIS)] [PgType.INT4] =
          BuildResult.ok [f] ∧ ∀ fld, f fld = SqlValue.Null) ∨
      build [(PqType.INT32, ConvertedType.TIME_MILLIS)] [PgType.INT4] =
        BuildResult.ok [strConv] ∨
      build [(PqType.INT32, ConvertedType.TIME_MILLIS)] [PgType.INT4] =
        BuildResult.ok [passThroughConv]) :=
  ⟨by decide, unsupported_triple_behavior _ _ _ (by decide)⟩

/-- C8: for every day count `d` in a DATE-typed source field, the
converter `build` selects produces the calendar date `1970-01-01` plus `d`
days (`parquet_date_to_naive_date d`, i.e. `addDays NAIVE_EPOCH d`) when
the destination is `DATE`, and the `%Y-%m-%d` rendering of that same
calendar date when the destination is `VARCHAR`, `TEXT` or SQL `CHAR`
(`BPCHAR`). -/
theorem date_conversion (d : Int) (dest : PgType) :
    (dest = PgType.DATE →
      build [(PqType.INT32, ConvertedType.DATE)] [dest] =
        BuildResult.ok [dateToDateConv] ∧
      dateToDateConv (PqField.Date d) =
        SqlValue.SDate (addDays NAIVE_EPOCH d)) ∧
    ((dest = PgType.VARCHAR ∨ dest = PgType.TEXT ∨ dest = PgType.BPCHAR) →
      build [(PqType.INT32, ConvertedType.DATE)] [dest] =
        BuildResult.ok [dateToTextConv] ∧
      dateToTextConv (PqField.Date d) =
        SqlValue.SText (formatYMD (addDays NAIVE_EPOCH d))) := by
  constructor
  · rintro rfl
    exact ⟨rfl, rfl⟩
  · rintro (rfl | rfl | rfl) <;> exact ⟨rfl, rfl⟩

set_option maxRecDepth 20000 in
/-- Witness for `date_conversion`: day 59 lands on 1970-03-01 (a
non-leap February) as a native date, and day -1 renders as
`"1969-12-31"`. -/
theorem date_conversion_witness :
    (build [(PqType.INT32, ConvertedType.DATE)] [PgType.DATE] =
        BuildResult.ok [dateToDateConv] ∧
      dateToDateConv (PqField.Date 59) =
        SqlValue.SDate { year := 1970, month := 3, day := 1 }) ∧
    (build [(PqType.INT32, ConvertedType.DATE)] [PgType.TEXT] =
        BuildResult.ok [dateToTextConv] ∧
      dateToTextConv (PqField.Date (-1)) = SqlValue.SText "1969-12-31") := by
  have h1 := (date_conversion 59 PgType.DATE).1 rfl
  have h2 := (date_conversion (-1) PgType.TEXT).2 (Or.inr (Or.inl rfl))
  exact ⟨⟨h1.1, h1.2.trans (by decide)⟩, ⟨h2.1, h2.2.trans (by decide)⟩⟩

/-- Direct checks of the calendar model's leap rules: 1972 is a leap
year, 1900 is not (century rule), 2000 is (400-year rule). -/
theorem date_model_examples :
    nextDay { year := 1972, month := 2, day := 28 } =
      { year := 1972, month := 2, day := 29 } ∧
    nextDay { year := 1900, month := 2, day := 28 } =
      { year := 1900, month := 3, day := 1 } ∧
    nextDay { year := 2000, month := 2, day := 28 } =
      { year := 2000, month := 2, day := 29 } ∧
    formatYMD { year := 1972, month := 2, day := 29 } = "1972-02-29" := by
  refine ⟨by decide, by decide, by decide, by decide⟩

mutual
/-- A parquet schema node (`parquet::schema::types::Type`): a primitive
leaf or a group with an ordered field list. -/
inductive PqSchemaType where
  | prim (name : String)
  | group (name : String) (fields : PqFieldList)
/-- The ordered children of a group node. -/
inductive PqFieldList where
  | nil
  | cons (hd : PqSchemaType) (tl : PqFieldList)
end

/-- `HashMap::insert`: overwrite the binding if the key is present,
append it otherwise. -/
def mapInsert : List (String × Nat) → String → Nat → List (String × Nat)
  | [], key, val => [(key, val)]
  | (k, v) :: rest, key, val =>
      if k = key then (key, val) :: rest else (k, v) :: mapInsert rest key val

/-- `HashMap::get`. -/
def mapGet : List (String × Nat) → String → Option Nat
  | [], _ => none
  | (k, v) :: rest, key => if k = key then some v else mapGet rest key

mutual
/-- `Parquet::map_fields_to_cols` (parquet_ops.rs:46): a primitive node
inserts `(name, col_num)`; a group node inserts nothing and recurses into
its fields, passing each child its `enumerate` index within the group as
the child's `col_num`. -/
def map_fields_to_cols (field_map : List (String × Nat)) :
    PqSchemaType → Nat → Nat → List (String × Nat)
  | PqSchemaType.prim name, _depth, col_num => mapInsert field_map name col_num
  | PqSchemaType.group _ fields, depth, _col_num =>
      map_fields_children field_map fields depth 0
/-- The `for (column_num, column) in schema.get_fields().iter().enumerate()`
loop of `map_fields_to_cols`. -/
def map_fields_children (field_map : List (String × Nat)) :
    PqFieldList → Nat → Nat → List (String × Nat)
  | PqFieldList.nil, _, _ => field_map
  | PqFieldList.cons c cs, depth, idx =>
      map_fields_children (map_fields_to_cols field_map c (depth + 1) idx) cs
        depth (idx + 1)
end

/-- `Parquet::get_desired_cols` (parquet_ops.rs:28): build the field map
from the file schema with `(depth, col_num) = (0, 0)` and look every
requested field up, erroring with the offending field name
(`Field '{}' not found in field_map`, modelled by the name). -/
def get_desired_cols (desired_fields : List String) (schema : PqSchemaType) :
    Except String (List Nat) :=
  let field_map := map_fields_to_cols [] schema 0 0
  desired_fields.mapM (fun field =>
    match mapGet field_map field with
    | some col_num => Except.ok col_num
    | none => Except.error field)

mutual
/-- Modelled from the claim's words: the ordinal the code actually
assigns - the index of the last depth-first leaf carrying the name within
its parent group's field list (`idx` is the index of the current node
within its parent). -/
def parentIdxOfSchema : PqSchemaType → Nat → String → Option Nat
  | PqSchemaType.prim n, idx, key => if n = key then some idx else none
  | PqSchemaType.group _ fs, _, key => parentIdxOfFields fs 0 key
/-- `parentIdxOfSchema` over a field list whose first element has index
`idx`; later occurrences win, as later `insert`s overwrite. -/
def parentIdxOfFields : PqFieldList → Nat → String → Option Nat
  | PqFieldList.nil, _, _ => none
  | PqFieldList.cons c cs, idx, key =>
      match parentIdxOfFields cs (idx + 1) key with
      | some v => some v
      | none => parentIdxOfSchema c idx key
end

mutual
/-- The depth-first leaf names of a schema, the numbering the claim (and
§4.2 of the spec) prescribes. -/
def dfsLeaves : PqSchemaType → List String
  | PqSchemaType.prim n => [n]
  | PqSchemaType.group _ fs => dfsLeavesF fs
def dfsLeavesF : PqFieldList → List String
  | PqFieldList.nil => []
  | PqFieldList.cons c cs => dfsLeaves c ++ dfsLeavesF cs
end

/-- Modelled from the spec: the ordinal of a leaf when leaves are numbered
0,1,2,... in depth-first order over the whole schema, groups contributing
nothing. -/
def spec_leaf_ordinal (schema : PqSchemaType) (name : String) : Option Nat :=
  (dfsLeaves schema).findIdx? (· == name)

theorem mapGet_mapInsert (m : List (String × Nat)) (k : String) (v : Nat)
    (key : String) :
    mapGet (mapInsert m k v) key = if k = key then some v else mapGet m key := by
  induction m with
  | nil => simp [mapInsert, mapGet]
  | cons hd tl ih =>
      obtain ⟨k', v'⟩ := hd
      by_cases h : k' = k
      · subst h
        by_cases hk : k' = key <;> simp [mapInsert, mapGet, hk]
      · by_cases hk : k' = key
        · subst hk
          have hne : k ≠ k' := fun hkk => h hkk.symm
          simp [mapInsert, mapGet, h, hne]
        · simp [mapInsert, mapGet, h, hk, ih]

mutual
/-- Looking a key up in the map produced by `map_fields_to_cols` yields
the parent-relative index of the last depth-first leaf with that name,
falling back to the incoming map. -/
theorem mapGet_map_fields_to_cols (s : PqSchemaType)
    (m : List (String × Nat)) (depth idx : Nat) (key : String) :
    mapGet (map_fields_to_cols m s depth idx) key =
      (match parentIdxOfSchema s idx key with
       | some v => some v
       | none => mapGet m key) := by
  cases s with
  | prim n =>
      simp only [map_fields_to_cols, parentIdxOfSchema, mapGet_mapInsert]
      by_cases h : n = key <;> simp [h]
  | group n fs =>
      simpa only [map_fields_to_cols, parentIdxOfSchema] using
        mapGet_map_fields_children fs m depth 0 key
theorem mapGet_map_fields_children (fs : PqFieldList)
    (m : List (String × Nat)) (depth idx : Nat) (key : String) :
    mapGet (map_fields_children m fs depth idx) key =
      (match parentIdxOfFields fs idx key with
       | some v => some v
       | none => mapGet m key) := by
  cases fs with
  | nil => rfl
  | cons c cs =>
      have h1 := mapGet_map_fields_children cs
        (map_fields_to_cols m c (depth + 1) idx) depth (idx + 1) key
      have h2 := mapGet_map_fields_to_cols c m (depth + 1) idx key
      simp only [map_fields_children, parentIdxOfFields, h1, h2]
      cases parentIdxOfFields cs (idx + 1) key <;>
        cases parentIdxOfSchema c idx key <;> rfl
end

/-- The schema `root { a; g { b; c }; d }` used to refute the depth-first
numbering claim. -/
def nestedSchema : PqSchemaType :=
  PqSchemaType.group "root"
    (PqFieldList.cons (PqSchemaType.prim "a")
      (PqFieldList.cons
        (PqSchemaType.group "g"
          (PqFieldList.cons (PqSchemaType.prim "b")
            (PqFieldList.cons (PqSchemaType.prim "c") PqFieldList.nil)))
        (PqFieldList.cons (PqSchemaType.prim "d") PqFieldList.nil)))

/-- C7 counterexample: in `root { a; g { b; c }; d }` the depth-first leaf
ordinal of `d` is 3 (leaves `a,b,c,d`), but `get_desired_cols` returns 2 -
the index of `d` within its parent group, the group `g` having occupied
index 1.  Likewise `b` has depth-first ordinal 1 but resolves to 0. -/
theorem leaf_ordinal_counterexample :
    spec_leaf_ordinal nestedSchema "d" = some 3 ∧
    get_desired_cols ["d"] nestedSchema = Except.ok [2] ∧
    get_desired_cols ["d"] nestedSchema ≠ Except.ok [3] ∧
    spec_leaf_ordinal nestedSchema "b" = some 1 ∧
    get_desired_cols ["b"] nestedSchema = Except.ok [0] := by
  refine ⟨rfl, rfl, ?_, rfl, rfl⟩
  intro h
  have h2 : (Except.ok [2] : Except String (List Nat)) = Except.ok [3] := h
  simp at h2

/-- C7 amended: `get_desired_cols` maps each requested name independently
to the index, within its parent group's field list, of the last
depth-first schema leaf carrying that name (so duplicate requested names
resolve to the same ordinal), and errors with the offending field name
when no leaf matches. -/
theorem get_desired_cols_spec (schema : PqSchemaType)
    (desired_fields : List String) :
    get_desired_cols desired_fields schema =
      desired_fields.mapM (fun field =>
        match parentIdxOfSchema schema 0 field with
        | some col_num => Except.ok col_num
        | none => Except.error field) := by
  have hfun : ∀ field : String,
      (match mapGet (map_fields_to_cols [] schema 0 0) field with
       | some col_num => (Except.ok col_num : Except String Nat)
       | none => Except.error field) =
      (match parentIdxOfSchema schema 0 field with
       | some col_num => Except.ok col_num
       | none => Except.error field) := by
    intro field
    rw [mapGet_map_fields_to_cols]
    cases parentIdxOfSchema schema 0 field <;> rfl
  exact congrArg (fun f => List.mapM f desired_fields) (funext hfun)

/-- `HashMap` lookup for the maps of db.rs, as an association list with
unique keys (a `HashMap` cannot hold duplicate keys). -/
def assocGet {α : Type} : List (String × α) → String → Option α
  | [], _ => none
  | (k, v) :: rest, key => if k = key then some v else assocGet rest key

/-- The `db_cols` computation of `Db::connect` (db.rs:113-132): with no
alias map the parquet fields themselves; otherwise a `filter_map` that,
per field, keeps the field name when the map has no entry
(`contains_key = false`), drops the field on the unreachable
`contains-but-get-none` branch, keeps the field name when the entry is an
unset alias (`alias.is_none()`), and otherwise uses the alias. -/
def resolve_db_cols (parquet_fields : List String)
    (parquet_to_db : Option (List (String × Option String))) : List String :=
  match parquet_to_db with
  | none => parquet_fields
  | some field_aliases =>
      parquet_fields.filterMap (fun f =>
        match (assocGet field_aliases f).isSome with
        | false => some f
        | true =>
            match assocGet field_aliases f with
            | none => none
            | some ali => if ali.isNone then some f else ali)

/-- The `db_col_types` loop of `Db::connect` (db.rs:136-145): look every
chosen column up in the catalog map and collect its type, bailing with the
offending column name (`Table {} does not have column {}`, modelled by the
column name). -/
def collect_db_col_types (db_col_to_type : List (String × PgType)) :
    List String → Except String (List PgType)
  | [] => Except.ok []
  | col :: rest =>
      match assocGet db_col_to_type col with
      | some col_type =>
          (match collect_db_col_types db_col_to_type rest with
           | Except.ok tys => Except.ok (col_type :: tys)
           | Except.error e => Except.error e)
      | none => Except.error col

/-- Modelled from the spec (§4.4 alias resolution): destination column for
a source field `f` - `f` without an alias map; the concrete name when the
map binds `f` to one; `f` when the map binds `f` to *unset*; `f` when the
map has no entry for `f`. -/
def spec_dest_col (parquet_to_db : Option (List (String × Option String)))
    (f : String) : String :=
  match parquet_to_db with
  | none => f
  | some m =>
      match assocGet m f with
      | some (some name) => name
      | some none => f
      | none => f

theorem collect_db_col_types_ok (catalog : List (String × PgType)) :
    ∀ (cols : List String) (tys : List PgType),
      collect_db_col_types catalog cols = Except.ok tys →
      List.Forall₂ (fun c t => assocGet catalog c = some t) cols tys := by
  intro cols
  induction cols with
  | nil =>
      intro tys h
      simp only [collect_db_col_types] at h
      cases h
      exact List.Forall₂.nil
  | cons c cs ih =>
      intro tys h
      simp only [collect_db_col_types] at h
      cases hc : assocGet catalog c with
      | none => rw [hc] at h; cases h
      | some t =>
          rw [hc] at h
          cases hrest : collect_db_col_types catalog cs with
          | error e => rw [hrest] at h; cases h
          | ok ts =>
              rw [hrest] at h
              cases h
              exact List.Forall₂.cons hc (ih ts hrest)

/-- C9: `Db::connect` chooses each destination column name by the spec's
four alias rules (field name itself without a map, the concrete alias when
bound, the field name for an unset alias or a missing entry), and on
success the destination-name and destination-type vectors match the
requested source fields in length and order (the i-th type is the catalog
type of the i-th chosen name). -/
theorem db_cols_resolution (parquet_fields : List String)
    (parquet_to_db : Option (List (String × Option String)))
    (db_col_to_type : List (String × PgType)) :
    resolve_db_cols parquet_fields parquet_to_db =
      parquet_fields.map (spec_dest_col parquet_to_db) ∧
    (∀ tys, collect_db_col_types db_col_to_type
        (resolve_db_cols parquet_fields parquet_to_db) = Except.ok tys →
      List.Forall₂ (fun c t => assocGet db_col_to_type c = some t)
        (resolve_db_cols parquet_fields parquet_to_db) tys ∧
      tys.length = parquet_fields.length) := by
  have hmap : resolve_db_cols parquet_fields parquet_to_db =
      parquet_fields.map (spec_dest_col parquet_to_db) := by
    cases parquet_to_db with
    | none =>
        rw [show spec_dest_col none = id from funext fun f => rfl, List.map_id]
        rfl
    | some m =>
        induction parquet_fields with
        | nil => rfl
        | cons f fs ih =>
            simp only [resolve_db_cols, List.filterMap_cons, List.map_cons] at ih ⊢
            cases h : assocGet m f with
            | none => simpa [h, spec_dest_col] using ih
            | some ali =>
                cases ali with
                | none => simpa [h, spec_dest_col] using ih
                | some name => simpa [h, spec_dest_col] using ih
  refine ⟨hmap, fun tys h => ?_⟩
  have hf := collect_db_col_types_ok db_col_to_type _ tys h
  refine ⟨hf, ?_⟩
  have := hf.length_eq
  rw [hmap] at this
  simpa using this.symm

/-- Witness for `db_cols_resolution`: the aliased fields `i.model` and
`num_of_gears` of the repository's `test_connect_col_name_has_alias`
scenario resolve to `model` and `gear`, whose catalog types are `VARCHAR`
and `INT4`. -/
theorem db_cols_resolution_witness :
    resolve_db_cols ["i.model", "num_of_gears"]
        (some [("i.model", some "model"), ("num_of_gears", some "gear")]) =
      List.map
        (spec_dest_col
          (some [("i.model", some "model"), ("num_of_gears", some "gear")]))
        ["i.model", "num_of_gears"] ∧
    (List.Forall₂
        (fun c t =>
          assocGet [("model", PgType.VARCHAR), ("gear", PgType.INT4),
            ("carb", PgType.INT4)] c = some t)
        (resolve_db_cols ["i.model", "num_of_gears"]
          (some [("i.model", some "model"), ("num_of_gears", some "gear")]))
        [PgType.VARCHAR, PgType.INT4] ∧
      ([PgType.VARCHAR, PgType.INT4] : List PgType).length =
        (["i.model", "num_of_gears"] : List String).length) :=
  ⟨(db_cols_resolution ["i.model", "num_of_gears"]
      (some [("i.model", some "model"), ("num_of_gears", some "gear")])
      [("model", PgType.VARCHAR), ("gear", PgType.INT4),
        ("carb", PgType.INT4)]).1,
   (db_cols_resolution ["i.model", "num_of_gears"]
      (some [("i.model", some "model"), ("num_of_gears", some "gear")])
      [("model", PgType.VARCHAR), ("gear", PgType.INT4),
        ("carb", PgType.INT4)]).2 [PgType.VARCHAR, PgType.INT4] rfl⟩
